import Mathlib

/-!
Shallow embedding of the typhoon tracking and intensity pipeline of this
repository (`8_track_typhoon.py`, `11_calculate_typhoon_intensity.py`,
`4_combine_netcdf.py`).

Coordinates and field values are rationals, time stamps are naturals.
xarray label-based slicing on a monotonic coordinate axis is modelled by
`sliceSel` (pandas keeps the labels between the two slice bounds, read in
the storage direction of the axis, so a slice given "against" the axis
direction selects nothing), and numpy `argmin` / `min` / `max` over the
selected window are modelled by `argminCell`, `minVal`, `maxVal`, with
`argmin` returning the first occurrence of the minimum in row-major
(latitude-major) scan order, as numpy does on the flattened window.
-/

namespace Typhoon

/-- Monotonicity test pandas uses for label slicing
(`is_monotonic_increasing`): the axis values are monotonically
non-decreasing (an empty or one-element axis counts as increasing). -/
def monoInc : List ℚ → Bool
  | [] => true
  | [_] => true
  | a :: b :: l => decide (a ≤ b) && monoInc (b :: l)

/-- Counterpart of `monoInc` for monotonically non-increasing axes
(pandas `is_monotonic_decreasing`). -/
def monoDec : List ℚ → Bool
  | [] => true
  | [_] => true
  | a :: b :: l => decide (b ≤ a) && monoDec (b :: l)

/-- xarray `sel` with `slice(a, b)` on a monotonic coordinate axis: on an
increasing axis it keeps the values `c` with `a ≤ c ≤ b`; on a decreasing
axis it keeps the values with `b ≤ c ≤ a`.  Relative storage order is
preserved. -/
def sliceSel (coords : List ℚ) (a b : ℚ) : List ℚ :=
  if monoInc coords then coords.filter fun c => decide (a ≤ c) && decide (c ≤ b)
  else coords.filter fun c => decide (b ≤ c) && decide (c ≤ a)

/-- The source's axis-orientation check `ds.latitude[0] < ds.latitude[-1]`
(`8_track_typhoon.py` line 55, `11_calculate_typhoon_intensity.py` lines
137 and 168); on an empty axis the source would fail to index, here the
check is simply false. -/
def isAscending (coords : List ℚ) : Bool :=
  match coords.head?, coords.getLast? with
  | some a, some b => decide (a < b)
  | _, _ => false

/-- Latitude selection of `8_track_typhoon.py` lines 54-56: the slice is
`(max, min)` by default (descending convention) and is flipped to
`(min, max)` when the orientation check reports an ascending axis. -/
def selLats (lats : List ℚ) (latMin latMax : ℚ) : List ℚ :=
  if isAscending lats then sliceSel lats (min latMin latMax) (max latMin latMax)
  else sliceSel lats (max latMin latMax) (min latMin latMax)

/-- Longitude selection of `8_track_typhoon.py` line 59: always
`slice(lon_min, lon_max)`, with no orientation detection. -/
def selLons (lons : List ℚ) (lonMin lonMax : ℚ) : List ℚ :=
  sliceSel lons lonMin lonMax

/-- A time-indexed gridded dataset: the two coordinate axes, the time
stamps `ds.time.values`, the `mean_sea_level_pressure` field and the 10 m
wind-speed magnitude field, both addressed by coordinate value the way
xarray `.sel` addresses them.  `wspd` stands for the magnitude
`sqrt(u^2 + v^2)` computed at `11_calculate_typhoon_intensity.py` line
112.  NetCDF coordinate axes are monotonic (pandas label slicing is only
defined on monotonic indexes); the two proof fields record that. -/
structure Grid where
  lats : List ℚ
  lons : List ℚ
  times : List ℕ
  mslp : ℕ → ℚ → ℚ → ℚ
  wspd : ℕ → ℚ → ℚ → ℚ
  latsMono : monoInc lats = true ∨ monoDec lats = true
  lonsMono : monoInc lons = true ∨ monoDec lons = true

/-- The grid cells of the square search window of half-width `r` centred at
`(clat, clon)`: the latitude and longitude selections of
`8_track_typhoon.py` lines 36-61, flattened in storage (latitude-major)
order as numpy sees the selected sub-array. -/
def windowCells (g : Grid) (clat clon r : ℚ) : List (ℚ × ℚ) :=
  (selLats g.lats (clat - r) (clat + r)).flatMap fun la =>
    (selLons g.lons (clon - r) (clon + r)).map fun lo => (la, lo)

/-- Fold step of numpy `argmin`: keep the earlier cell on ties, so the fold
returns the first occurrence of the minimum in scan order. -/
def pickMin (f : ℚ × ℚ → ℚ) (best d : ℚ × ℚ) : ℚ × ℚ :=
  if f d < f best then d else best

/-- numpy `argmin` over the flattened window (first occurrence of the
minimum); `none` on an empty window. -/
def argminCell (f : ℚ × ℚ → ℚ) : List (ℚ × ℚ) → Option (ℚ × ℚ)
  | [] => none
  | c :: cs => some (cs.foldl (pickMin f) c)

/-- numpy `min` over the flattened window; `none` on an empty window. -/
def minVal (f : ℚ × ℚ → ℚ) : List (ℚ × ℚ) → Option ℚ
  | [] => none
  | c :: cs => some (cs.foldl (fun m d => min m (f d)) (f c))

/-- numpy `max` over the flattened window; `none` on an empty window. -/
def maxVal (f : ℚ × ℚ → ℚ) : List (ℚ × ℚ) → Option ℚ
  | [] => none
  | c :: cs => some (cs.foldl (fun m d => max m (f d)) (f c))

/-- One row of the track table built at `8_track_typhoon.py` lines 75-80. -/
structure TrackPoint where
  time : ℕ
  latitude : ℚ
  longitude : ℚ
  min_pressure : ℚ
deriving DecidableEq, Repr

/-- One iteration of the tracking loop body (`8_track_typhoon.py` lines
36-80): select the window around the current position, report `none` when
it holds no cells (the `local_mslp.size == 0` break), otherwise record the
time stamp, the position of the pressure argmin and the pressure minimum. -/
def stepPoint (g : Grid) (t : ℕ) (clat clon r : ℚ) : Option TrackPoint :=
  let cells := windowCells g clat clon r
  match argminCell (fun c => g.mslp t c.1 c.2) cells,
        minVal (fun c => g.mslp t c.1 c.2) cells with
  | some q, some m => some ⟨t, q.1, q.2, m⟩
  | _, _ => none

/-- The tracking loop of `8_track_typhoon.py` lines 34-84: the current
position threads through the iteration, each successful step appends one
`TrackPoint` and re-centres on it, and an empty window breaks the loop,
discarding all remaining time steps. -/
def trackLoop (g : Grid) (r : ℚ) : List ℕ → ℚ → ℚ → List TrackPoint
  | [], _, _ => []
  | t :: ts, clat, clon =>
    match stepPoint g t clat clon r with
    | none => []
    | some p => p :: trackLoop g r ts p.latitude p.longitude

/-- `track_typhoon` (`8_track_typhoon.py` lines 13-87): run the tracking
loop over all time stamps from the externally supplied seed position. -/
def track_typhoon (g : Grid) (start_lat start_lon search_radius_deg : ℚ) :
    List TrackPoint :=
  trackLoop g search_radius_deg g.times start_lat start_lon

/-- 1-indexed first time step whose search window holds no cells, following
the same position recurrence as the tracking loop; `none` when every step
finds a nonempty window. -/
def firstEmptyStep (g : Grid) (r : ℚ) : List ℕ → ℚ → ℚ → Option ℕ
  | [], _, _ => none
  | t :: ts, clat, clon =>
    match stepPoint g t clat clon r with
    | none => some 1
    | some p => (firstEmptyStep g r ts p.latitude p.longitude).map (· + 1)

/-- Intensity categories of the CMA six-level scheme plus the
sub-threshold low-pressure class. -/
inductive IntensityCat
  | LowPressure
  | TD
  | TS
  | STS
  | TY
  | STY
  | SuperTY
deriving DecidableEq, Repr

/-- Ordinal position in none < TD < TS < STS < TY < STY < SuperTY. -/
def catOrd : IntensityCat → ℕ
  | .LowPressure => 0
  | .TD => 1
  | .TS => 2
  | .STS => 3
  | .TY => 4
  | .STY => 5
  | .SuperTY => 6

/-- `get_intensity_category` (`11_calculate_typhoon_intensity.py` lines
14-41), branch for branch: closed-interval guards with a final `else`
returning Super Typhoon. -/
def get_intensity_category (wind_speed_ms : ℚ) : IntensityCat × String :=
  if wind_speed_ms < 10.8 then (.LowPressure, "gray")
  else if 10.8 ≤ wind_speed_ms ∧ wind_speed_ms ≤ 17.1 then (.TD, "skyblue")
  else if 17.2 ≤ wind_speed_ms ∧ wind_speed_ms ≤ 24.4 then (.TS, "blue")
  else if 24.5 ≤ wind_speed_ms ∧ wind_speed_ms ≤ 32.6 then (.STS, "green")
  else if 32.7 ≤ wind_speed_ms ∧ wind_speed_ms ≤ 41.4 then (.TY, "yellow")
  else if 41.5 ≤ wind_speed_ms ∧ wind_speed_ms ≤ 50.9 then (.STY, "orange")
  else (.SuperTY, "red")

/-- One row of the intensity table built at
`11_calculate_typhoon_intensity.py` lines 192-200. -/
structure IntensityRow where
  time : ℕ
  latitude : ℚ
  longitude : ℚ
  min_pressure_pa : ℚ
  max_wind_speed_ms : ℚ
  intensity_category : IntensityCat
  intensity_color : String
deriving DecidableEq, Repr

/-- One iteration of the loop of `calculate_intensity`
(`11_calculate_typhoon_intensity.py` lines 128-200): re-track the centre
with the hard-coded `tracking_radius = 5.0`, then take the wind-speed
maximum over the secondary window of half-width `sr` centred on the found
centre, multiply it by the correction factor `cf` (or report `0.0` when
the secondary window is empty), and classify the corrected value. -/
def intensityStep (g : Grid) (t : ℕ) (clat clon sr cf : ℚ) :
    Option IntensityRow :=
  match stepPoint g t clat clon 5 with
  | none => none
  | some p =>
    let max_wind : ℚ :=
      match maxVal (fun c => g.wspd t c.1 c.2)
          (windowCells g p.latitude p.longitude sr) with
      | some raw => raw * cf
      | none => 0
    let ic := get_intensity_category max_wind
    some ⟨t, p.latitude, p.longitude, p.min_pressure, max_wind, ic.1, ic.2⟩

/-- The loop of `calculate_intensity`: the found centre threads through the
iteration exactly as in the tracking loop, and an empty tracking window
breaks the loop. -/
def intensityLoop (g : Grid) (sr cf : ℚ) : List ℕ → ℚ → ℚ → List IntensityRow
  | [], _, _ => []
  | t :: ts, clat, clon =>
    match intensityStep g t clat clon sr cf with
    | none => []
    | some row => row :: intensityLoop g sr cf ts row.latitude row.longitude

/-- `calculate_intensity` (`11_calculate_typhoon_intensity.py` lines
94-203): run the intensity loop over all time stamps from the seed
position, with secondary search radius `sr` and correction factor `cf`. -/
def calculate_intensity (g : Grid) (start_lat start_lon sr cf : ℚ) :
    List IntensityRow :=
  intensityLoop g sr cf g.times start_lat start_lon

/-- A per-time-step model output file fed to the assembly script: its base
file name and its payload. -/
structure RawFile (α : Type) where
  source : String
  data : α

/-- A dataset expanded with its parsed time coordinate
(`ds.expand_dims(time=[dt_object])`). -/
structure TimedFile (α : Type) where
  time : ℕ
  data : α

/-- The time-stamp string extracted from a file name at
`4_combine_netcdf.py` line 37: strip the `output_<file_type>_` prefix and
the `.nc` suffix (Python `str.replace` replaces every occurrence; so does
`String.replace`). -/
def extractTimeStr (file_type : String) (filename : String) : String :=
  (filename.replace ("output_" ++ file_type ++ "_") "").replace ".nc" ""

/-- `add_time_coordinate` (`4_combine_netcdf.py` lines 33-46): parse the
time stamp out of the file name; on success expand the dataset with it, on
a parse failure return the skip marker `none` (the Python `None` after the
warning).  `strptime` abstracts `datetime.strptime(time_str,
"%Y-%m-%d-%H-%M")`, which is Python standard-library code: it yields
`some` time stamp on a parseable string and `none` (a raised `ValueError`)
otherwise. -/
def add_time_coordinate {α : Type} (strptime : String → Option ℕ)
    (file_type : String) (ds : RawFile α) : Option (TimedFile α) :=
  match strptime (extractTimeStr file_type ds.source) with
  | some dt => some ⟨dt, ds.data⟩
  | none => none

/-- The assembly pipeline of `4_combine_netcdf.py` lines 50-59: map
`add_time_coordinate` over the files, keep the results that are not the
skip marker, and concatenate them along the time dimension (modelled as
the list of retained time-tagged datasets, in file order). -/
def combineDatasets {α : Type} (strptime : String → Option ℕ)
    (file_type : String) (files : List (RawFile α)) : List (TimedFile α) :=
  let datasets := files.map (add_time_coordinate strptime file_type)
  let valid := datasets.filter fun ds => ds.isSome
  valid.reduceOption

/-- The cell `q` is the unique strict pressure minimum of the search window
of half-width `r` centred at `(clat, clon)` at time `t`. -/
def strictMinCell (g : Grid) (t : ℕ) (clat clon r : ℚ) (q : ℚ × ℚ) : Prop :=
  q ∈ windowCells g clat clon r ∧
    ∀ c ∈ windowCells g clat clon r, c ≠ q → g.mslp t q.1 q.2 < g.mslp t c.1 c.2

instance (g : Grid) (t : ℕ) (clat clon r : ℚ) (q : ℚ × ℚ) :
    Decidable (strictMinCell g t clat clon r q) := by
  unfold strictMinCell; exact inferInstance

/-- A synthetic scenario with a single, unambiguous pressure minimum inside
the search window at every time step: `ms` lists, step by step, the unique
strict minimum of the window centred on the previous step's minimum
(seeded at `p`). -/
inductive UniqueMinTrack (g : Grid) (r : ℚ) :
    List ℕ → ℚ × ℚ → List (ℚ × ℚ) → Prop
  | nil (p : ℚ × ℚ) : UniqueMinTrack g r [] p []
  | cons (t : ℕ) (ts : List ℕ) (p q : ℚ × ℚ) (ms : List (ℚ × ℚ))
      (hq : strictMinCell g t p.1 p.2 r q)
      (hrest : UniqueMinTrack g r ts q ms) :
      UniqueMinTrack g r (t :: ts) p (q :: ms)

/-- Concrete two-by-two grid used to instantiate theorems with hypotheses:
the pressure minimum sits at `(0, 0)` at time `0` and at `(1, 1)` at time
`1`, and the wind magnitude is `5` everywhere. -/
def gW : Grid where
  lats := [0, 1]
  lons := [0, 1]
  times := [0, 1]
  mslp := fun t la lo =>
    if t = 0 then (if la = 0 ∧ lo = 0 then 99 else 100)
    else (if la = 1 ∧ lo = 1 then 99 else 100)
  wspd := fun _ _ _ => 5
  latsMono := Or.inl (by norm_num [monoInc])
  lonsMono := Or.inl (by norm_num [monoInc])

/-- The fold of `argminCell` returns either the new candidate or the
running best. -/
theorem pickMin_cases (f : ℚ × ℚ → ℚ) (best d : ℚ × ℚ) :
    pickMin f best d = d ∨ pickMin f best d = best := by
  unfold pickMin; split
  · exact Or.inl rfl
  · exact Or.inr rfl

/-- The fold of `argminCell` lands on one of the scanned cells. -/
theorem foldl_pickMin_mem (f : ℚ × ℚ → ℚ) :
    ∀ (cs : List (ℚ × ℚ)) (best : ℚ × ℚ),
      cs.foldl (pickMin f) best ∈ best :: cs := by
  intro cs
  induction cs with
  | nil => intro best; exact List.mem_singleton.mpr rfl
  | cons d cs ih =>
      intro best
      simp only [List.foldl_cons]
      rcases pickMin_cases f best d with h | h <;> rw [h]
      · exact List.mem_cons_of_mem best (ih d)
      · rcases List.mem_cons.mp (ih best) with h2 | h2
        · rw [h2]; exact List.mem_cons_self best (d :: cs)
        · exact List.mem_cons_of_mem best (List.mem_cons_of_mem d h2)

/-- The value at the cell chosen by the `argminCell` fold is the running
minimum computed by the `minVal` fold. -/
theorem foldl_pickMin_val (f : ℚ × ℚ → ℚ) :
    ∀ (cs : List (ℚ × ℚ)) (best : ℚ × ℚ),
      f (cs.foldl (pickMin f) best) =
        cs.foldl (fun m d => min m (f d)) (f best) := by
  intro cs
  induction cs with
  | nil => intro best; rfl
  | cons d cs ih =>
      intro best
      simp only [List.foldl_cons]
      rw [ih]
      congr 1
      unfold pickMin
      rcases lt_or_ge (f d) (f best) with h | h
      · rw [if_pos h, min_eq_right (le_of_lt h)]
      · rw [if_neg (not_lt.mpr h), min_eq_left h]

/-- The `minVal` fold never exceeds its initial value. -/
theorem foldl_minf_le_init (f : ℚ × ℚ → ℚ) :
    ∀ (cs : List (ℚ × ℚ)) (m : ℚ),
      cs.foldl (fun m d => min m (f d)) m ≤ m := by
  intro cs
  induction cs with
  | nil => intro m; exact le_refl m
  | cons d cs ih =>
      intro m
      simp only [List.foldl_cons]
      exact le_trans (ih (min m (f d))) (min_le_left m (f d))

/-- The `minVal` fold never exceeds the value at any scanned cell. -/
theorem foldl_minf_le_mem (f : ℚ × ℚ → ℚ) :
    ∀ (cs : List (ℚ × ℚ)) (m : ℚ) (q : ℚ × ℚ), q ∈ cs →
      cs.foldl (fun m d => min m (f d)) m ≤ f q := by
  intro cs
  induction cs with
  | nil => intro m q hq; exact absurd hq (List.not_mem_nil q)
  | cons d cs ih =>
      intro m q hq
      simp only [List.foldl_cons]
      rcases List.mem_cons.mp hq with h | h
      · exact le_trans (foldl_minf_le_init f cs (min m (f d)))
          (h ▸ min_le_right m (f d))
      · exact ih (min m (f d)) q h

/-- Agreement of numpy `argmin` and `min` over the same window: the field
value at the argmin cell is the window minimum. -/
theorem argminCell_minVal (f : ℚ × ℚ → ℚ) (cells : List (ℚ × ℚ))
    (q : ℚ × ℚ) (m : ℚ) (hq : argminCell f cells = some q)
    (hm : minVal f cells = some m) : f q = m := by
  cases cells with
  | nil => simp [argminCell] at hq
  | cons c cs =>
      simp only [argminCell, Option.some.injEq] at hq
      simp only [minVal, Option.some.injEq] at hm
      subst hq
      subst hm
      exact foldl_pickMin_val f cs c

/-- On a window with a unique strict minimum, numpy `argmin` returns that
cell. -/
theorem argminCell_of_strictMin (f : ℚ × ℚ → ℚ) (cells : List (ℚ × ℚ))
    (q : ℚ × ℚ) (hq : q ∈ cells)
    (hmin : ∀ c ∈ cells, c ≠ q → f q < f c) :
    argminCell f cells = some q := by
  cases cells with
  | nil => exact absurd hq (List.not_mem_nil q)
  | cons c cs =>
      simp only [argminCell, Option.some.injEq]
      by_cases hw : cs.foldl (pickMin f) c = q
      · exact hw
      · exfalso
        have hmem : cs.foldl (pickMin f) c ∈ c :: cs := foldl_pickMin_mem f cs c
        have hlt : f q < f (cs.foldl (pickMin f) c) := hmin _ hmem hw
        have hle : f (cs.foldl (pickMin f) c) ≤ f q := by
          rw [foldl_pickMin_val f cs c]
          rcases List.mem_cons.mp hq with h | h
          · exact le_trans (foldl_minf_le_init f cs (f c)) (le_of_eq (by rw [h]))
          · exact foldl_minf_le_mem f cs (f c) q h
        exact absurd hlt (not_lt.mpr hle)

/-- The tracking step stops exactly when the search window holds no
cells. -/
theorem stepPoint_eq_none_iff (g : Grid) (t : ℕ) (clat clon r : ℚ) :
    stepPoint g t clat clon r = none ↔ windowCells g clat clon r = [] := by
  cases hc : windowCells g clat clon r with
  | nil => simp [stepPoint, hc, argminCell, minVal]
  | cons c cs => simp [stepPoint, hc, argminCell, minVal]

/-- C1 (code bug evidence): the wind speed 17.15 m/s lies strictly between
the TD range upper bound 17.1 and the TS range lower bound 17.2, yet
`get_intensity_category` classifies it as Super Typhoon, a category whose
listed range starts at 51.0 - the listed ranges do not cover every wind
speed and the fall-through `else` misclassifies the gap values. -/
theorem C1_code_eval :
    (17.1 : ℚ) < 17.15 ∧ (17.15 : ℚ) < 17.2 ∧ (17.15 : ℚ) < 51.0 ∧
      get_intensity_category (17.15 : ℚ) = (IntensityCat.SuperTY, "red") := by
  norm_num [get_intensity_category]

/-- C2 (code bug evidence): raw wind 17.15 m/s with correction factors
1 ≤ 1.2 classifies as Super Typhoon (ordinal 6) at factor 1 and as
Tropical Storm (ordinal 2) at factor 1.2: increasing the factor decreases
the resulting category. -/
theorem C2_code_eval :
    (1 : ℚ) ≤ 1.2 ∧
      (get_intensity_category ((17.15 : ℚ) * 1)).1 = IntensityCat.SuperTY ∧
      (get_intensity_category ((17.15 : ℚ) * 1.2)).1 = IntensityCat.TS ∧
      catOrd (get_intensity_category ((17.15 : ℚ) * 1.2)).1 <
        catOrd (get_intensity_category ((17.15 : ℚ) * 1)).1 := by
  norm_num [get_intensity_category, catOrd]

/-- C5 counterexample: the longitude slice is taken without orientation
detection, so the same logical window (centre 0.5, half-width 0.5, i.e.
bounds 0 to 1) selects both cells of an ascending longitude axis `[0, 1]`
but selects nothing on the same axis stored descending as `[1, 0]`. -/
theorem C5_counterexample :
    ((0 : ℚ) ∈ selLons [0, 1] 0 1) ∧ selLons [0, 1] 0 1 = [0, 1] ∧
      selLons [1, 0] 0 1 = [] := by
  norm_num [selLons, sliceSel, monoInc, List.filter_cons]

/-- C8: during assembly, `add_time_coordinate` returns the skip marker for
exactly the files whose extracted time-stamp string fails to parse, and
the combined result consists of exactly the successfully preprocessed
files, in order - unparseable files are dropped, all others are kept. -/
theorem C8_skip_unparseable {α : Type} (strptime : String → Option ℕ)
    (file_type : String) (files : List (RawFile α)) :
    (∀ ds : RawFile α, (add_time_coordinate strptime file_type ds).isNone =
        (strptime (extractTimeStr file_type ds.source)).isNone) ∧
    combineDatasets strptime file_type files =
      files.filterMap (add_time_coordinate strptime file_type) := by
  constructor
  · intro ds
    unfold add_time_coordinate
    cases strptime (extractTimeStr file_type ds.source) <;> rfl
  · induction files with
    | nil => rfl
    | cons f fs ih =>
        unfold combineDatasets at ih ⊢
        simp only [List.map_cons, List.filterMap_cons]
        cases h : add_time_coordinate strptime file_type f with
        | none => simpa [h, List.filter_cons] using ih
        | some v => simpa [h, List.filter_cons, List.reduceOption_cons_of_some] using ih

/-- The tracking core of the intensity loop ignores the secondary search
radius and the correction factor: the projections to time, position and
minimum pressure agree row by row. -/
theorem intensityLoop_core_eq (g : Grid) (sr1 cf1 sr2 cf2 : ℚ) :
    ∀ (ts : List ℕ) (clat clon : ℚ),
      (intensityLoop g sr1 cf1 ts clat clon).map
          (fun row => (row.time, row.latitude, row.longitude, row.min_pressure_pa)) =
        (intensityLoop g sr2 cf2 ts clat clon).map
          (fun row => (row.time, row.latitude, row.longitude, row.min_pressure_pa)) := by
  intro ts
  induction ts with
  | nil => intro _ _; rfl
  | cons t ts ih =>
      intro clat clon
      cases h : stepPoint g t clat clon 5 with
      | none => simp only [intensityLoop, intensityStep, h]
      | some p =>
          simp only [intensityLoop, intensityStep, h, List.map_cons,
            List.cons.injEq, true_and]
          exact ih p.latitude p.longitude

/-- C9 (noninterference): two runs of `calculate_intensity` that differ
only in the secondary search radius and the correction factor produce the
same number of rows with identical time, latitude, longitude and minimum
pressure in every row - those two parameters can influence only the wind
speed, category and colour fields. -/
theorem C9_noninterference (g : Grid) (start_lat start_lon sr1 cf1 sr2 cf2 : ℚ) :
    (calculate_intensity g start_lat start_lon sr1 cf1).map
        (fun row => (row.time, row.latitude, row.longitude, row.min_pressure_pa)) =
      (calculate_intensity g start_lat start_lon sr2 cf2).map
        (fun row => (row.time, row.latitude, row.longitude, row.min_pressure_pa)) :=
  intensityLoop_core_eq g sr1 cf1 sr2 cf2 g.times start_lat start_lon

/-- C3: when the search window at (1-indexed) time step `k` is the first
to contain no grid cells, the tracking loop stops without retrying or
widening the radius: it returns exactly the `k - 1` points computed at
steps `1` to `k - 1`, unchanged (the output coincides with the run over
the first `k - 1` time stamps), and no time step at or after `k`
contributes an entry. -/
theorem C3_stop_at_first_empty_window (g : Grid) (r : ℚ) :
    ∀ (ts : List ℕ) (clat clon : ℚ) (k : ℕ),
      firstEmptyStep g r ts clat clon = some k →
      1 ≤ k ∧ k ≤ ts.length ∧
        (trackLoop g r ts clat clon).length = k - 1 ∧
        trackLoop g r ts clat clon = trackLoop g r (ts.take (k - 1)) clat clon := by
  intro ts
  induction ts with
  | nil => intro clat clon k h; simp [firstEmptyStep] at h
  | cons t ts ih =>
      intro clat clon k h
      cases hstep : stepPoint g t clat clon r with
      | none =>
          simp only [firstEmptyStep, hstep, Option.some.injEq] at h
          subst h
          refine ⟨le_refl 1, by simp, ?_, ?_⟩
          · simp [trackLoop, hstep]
          · simp [trackLoop, hstep]
      | some p =>
          simp only [firstEmptyStep, hstep, Option.map_eq_some'] at h
          rcases h with ⟨k1, hk1, rfl⟩
          obtain ⟨h1, h2, h3, h4⟩ := ih p.latitude p.longitude k1 hk1
          cases k1 with
          | zero => exact absurd h1 (by norm_num)
          | succ k2 =>
              have hlen : (trackLoop g r ts p.latitude p.longitude).length = k2 := by
                simpa using h3
              have h4t : trackLoop g r ts p.latitude p.longitude =
                  trackLoop g r (ts.take k2) p.latitude p.longitude := by
                simpa using h4
              refine ⟨by omega, by simp at h2 ⊢; omega, ?_, ?_⟩
              · simp only [trackLoop, hstep, List.length_cons]
                rw [hlen]; omega
              · have : k2 + 1 + 1 - 1 = k2 + 1 := by omega
                rw [this, List.take_succ_cons]
                simp only [trackLoop, hstep]
                rw [h4t]

/-- C3 witness: on the concrete grid `gW`, with the seed far outside the
grid, the very first window is empty (`k = 1`) and the loop returns the
empty track. -/
theorem C3_witness :
    firstEmptyStep gW 5 [0, 1] 50 50 = some 1 ∧
      (1 ≤ 1 ∧ 1 ≤ ([0, 1] : List ℕ).length ∧
        (trackLoop gW 5 [0, 1] 50 50).length = 1 - 1 ∧
        trackLoop gW 5 [0, 1] 50 50 =
          trackLoop gW 5 (([0, 1] : List ℕ).take (1 - 1)) 50 50) := by
  have hfe : firstEmptyStep gW 5 [0, 1] 50 50 = some 1 := by
    norm_num [firstEmptyStep, stepPoint, windowCells, selLats, selLons, sliceSel,
      monoInc, monoDec, isAscending, argminCell, minVal, gW, List.filter_cons]
  exact ⟨hfe, C3_stop_at_first_empty_window gW 5 [0, 1] 50 50 1 hfe⟩

/-- The head of the tracking loop output is produced by a single
centre-location step from the loop's seed position and the first time
stamp. -/
theorem trackLoop_head (g : Grid) (r : ℚ) :
    ∀ (ts : List ℕ) (clat clon : ℚ) (p : TrackPoint),
      (trackLoop g r ts clat clon)[0]? = some p →
      ∃ t, ts[0]? = some t ∧ stepPoint g t clat clon r = some p := by
  intro ts clat clon p h
  cases ts with
  | nil => simp [trackLoop] at h
  | cons t ts =>
      cases hstep : stepPoint g t clat clon r with
      | none => simp [trackLoop, hstep] at h
      | some q =>
          simp only [trackLoop, hstep, List.getElem?_cons_zero,
            Option.some.injEq] at h
          subst h
          exact ⟨t, by simp, hstep⟩

/-- Entry `i + 1` of the tracking loop output is produced by a single
centre-location step from entry `i`'s recorded position and the time
stamp at index `i + 1` only. -/
theorem trackLoop_succ (g : Grid) (r : ℚ) :
    ∀ (ts : List ℕ) (clat clon : ℚ) (i : ℕ) (p q : TrackPoint),
      (trackLoop g r ts clat clon)[i]? = some p →
      (trackLoop g r ts clat clon)[i + 1]? = some q →
      ∃ t, ts[i + 1]? = some t ∧
        stepPoint g t p.latitude p.longitude r = some q := by
  intro ts
  induction ts with
  | nil => intro clat clon i p q hp hq; simp [trackLoop] at hp
  | cons t ts ih =>
      intro clat clon i p q hp hq
      cases hstep : stepPoint g t clat clon r with
      | none => simp [trackLoop, hstep] at hp
      | some p0 =>
          simp only [trackLoop, hstep] at hp hq
          cases i with
          | zero =>
              rw [List.getElem?_cons_zero, Option.some.injEq] at hp
              rw [List.getElem?_cons_succ] at hq
              subst hp
              rcases trackLoop_head g r ts p0.latitude p0.longitude q hq with
                ⟨t1, ht1, hs1⟩
              exact ⟨t1, by simpa using ht1, hs1⟩
          | succ i =>
              rw [List.getElem?_cons_succ] at hp hq
              rcases ih p0.latitude p0.longitude i p q hp hq with ⟨t1, ht1, hs1⟩
              exact ⟨t1, by simpa using ht1, hs1⟩

/-- C4: tracking is a strict first-order recurrence: the first track point
is located in the window centred on the externally supplied seed with the
first time stamp, and every later track point is located in the window
centred exactly on the previous track point's recorded position, from the
pressure field at its own time stamp only - no other previous point, no
smoothing and no backtracking enters the computation (the whole step is
one `stepPoint` centre location). -/
theorem C4_first_order_recurrence (g : Grid) (start_lat start_lon r : ℚ) :
    (∀ p : TrackPoint, (track_typhoon g start_lat start_lon r)[0]? = some p →
      ∃ t, g.times[0]? = some t ∧ stepPoint g t start_lat start_lon r = some p) ∧
    ∀ (i : ℕ) (p q : TrackPoint),
      (track_typhoon g start_lat start_lon r)[i]? = some p →
      (track_typhoon g start_lat start_lon r)[i + 1]? = some q →
      ∃ t, g.times[i + 1]? = some t ∧
        stepPoint g t p.latitude p.longitude r = some q :=
  ⟨fun p h => trackLoop_head g r g.times start_lat start_lon p h,
   fun i p q hp hq => trackLoop_succ g r g.times start_lat start_lon i p q hp hq⟩

/-- C4 witness: on the concrete grid `gW`, the second track point is the
centre located in the window around the first track point's position
`(0, 0)` at the second time stamp. -/
theorem C4_witness :
    ∃ t, gW.times[1]? = some t ∧
      stepPoint gW t (0 : ℚ) (0 : ℚ) 5 = some ⟨1, 1, 1, 99⟩ := by
  apply (C4_first_order_recurrence gW 0 0 5).2 0 ⟨0, 0, 0, 99⟩ ⟨1, 1, 1, 99⟩
  · norm_num [track_typhoon, trackLoop, stepPoint, windowCells, selLats, selLons,
      sliceSel, monoInc, monoDec, isAscending, argminCell, minVal, pickMin, gW,
      List.filter_cons]
  · norm_num [track_typhoon, trackLoop, stepPoint, windowCells, selLats, selLons,
      sliceSel, monoInc, monoDec, isAscending, argminCell, minVal, pickMin, gW,
      List.filter_cons]

/-- Every point in the tracking loop output records the pressure-grid
value at its own recorded time and position. -/
theorem trackLoop_pressure_at_pos (g : Grid) (r : ℚ) :
    ∀ (ts : List ℕ) (clat clon : ℚ) (tp : TrackPoint),
      tp ∈ trackLoop g r ts clat clon →
      g.mslp tp.time tp.latitude tp.longitude = tp.min_pressure := by
  intro ts
  induction ts with
  | nil => intro clat clon tp h; simp [trackLoop] at h
  | cons t ts ih =>
      intro clat clon tp h
      cases hstep : stepPoint g t clat clon r with
      | none => simp [trackLoop, hstep] at h
      | some p =>
          simp only [trackLoop, hstep] at h
          rcases List.mem_cons.mp h with h1 | h1
          · subst h1
            simp only [stepPoint] at hstep
            cases hq : argminCell (fun c => g.mslp t c.1 c.2)
                (windowCells g clat clon r) with
            | none => simp [hq] at hstep
            | some cell =>
                cases hm : minVal (fun c => g.mslp t c.1 c.2)
                    (windowCells g clat clon r) with
                | none => simp [hq, hm] at hstep
                | some m =>
                    simp only [hq, hm, Option.some.injEq] at hstep
                    subst hstep
                    exact argminCell_minVal _ _ cell m hq hm
          · exact ih p.latitude p.longitude tp h1

/-- C10: for every produced track point, the recorded minimum pressure is
the pressure-grid value at the recorded time, latitude and longitude of
that same point - the argmin position and the min value refer to the same
grid cell. -/
theorem C10_min_pressure_at_argmin (g : Grid) (start_lat start_lon r : ℚ)
    (tp : TrackPoint) (h : tp ∈ track_typhoon g start_lat start_lon r) :
    g.mslp tp.time tp.latitude tp.longitude = tp.min_pressure :=
  trackLoop_pressure_at_pos g r g.times start_lat start_lon tp h

/-- C10 witness: the first track point of the concrete run on `gW` records
pressure `99`, which is the grid value at its recorded cell `(0, 0)`. -/
theorem C10_witness :
    (⟨0, 0, 0, 99⟩ : TrackPoint) ∈ track_typhoon gW 0 0 5 ∧
      gW.mslp 0 0 0 = 99 := by
  have hm : (⟨0, 0, 0, 99⟩ : TrackPoint) ∈ track_typhoon gW 0 0 5 := by
    norm_num [track_typhoon, trackLoop, stepPoint, windowCells, selLats, selLons,
      sliceSel, monoInc, monoDec, isAscending, argminCell, minVal, pickMin, gW,
      List.filter_cons]
  exact ⟨hm, C10_min_pressure_at_argmin gW 0 0 5 ⟨0, 0, 0, 99⟩ hm⟩

/-- The pandas increasing-monotonicity check holds exactly when the axis
values are pairwise non-decreasing. -/
theorem monoInc_iff_pairwise : ∀ (l : List ℚ),
    monoInc l = true ↔ l.Pairwise (· ≤ ·)
  | [] => by simp [monoInc]
  | [a] => by simp [monoInc]
  | a :: b :: l => by
      rw [monoInc, Bool.and_eq_true, decide_eq_true_eq,
        monoInc_iff_pairwise (b :: l)]
      constructor
      · rintro ⟨hab, hp⟩
        refine List.Pairwise.cons ?_ hp
        intro x hx
        rcases List.mem_cons.mp hx with rfl | hx
        · exact hab
        · exact le_trans hab (List.rel_of_pairwise_cons hp hx)
      · intro hp
        exact ⟨List.rel_of_pairwise_cons hp (List.mem_cons_self b l), hp.of_cons⟩

/-- A strictly sorted axis passes the pandas increasing check. -/
theorem monoInc_of_sorted (l : List ℚ) (hs : l.Sorted (· < ·)) :
    monoInc l = true :=
  (monoInc_iff_pairwise l).mpr (hs.imp le_of_lt)

/-- The reverse of a strictly sorted axis with at least two cells fails
the pandas increasing check. -/
theorem monoInc_reverse_of_sorted (a b : ℚ) (l : List ℚ)
    (hs : (a :: b :: l).Sorted (· < ·)) :
    monoInc (a :: b :: l).reverse = false := by
  by_contra h
  have h2 : monoInc (a :: b :: l).reverse = true := by
    cases hm : monoInc (a :: b :: l).reverse
    · exact absurd hm h
    · rfl
  have hp := (monoInc_iff_pairwise _).mp h2
  have hge := List.pairwise_reverse.mp hp
  have hba : b ≤ a :=
    List.rel_of_pairwise_cons hge (List.mem_cons_self b l)
  have hab : a < b :=
    List.rel_of_pairwise_cons hs (List.mem_cons_self b l)
  exact absurd hba (not_le.mpr hab)

/-- The orientation check compares the head and last axis values. -/
theorem isAscending_head_last (l : List ℚ) (x y : ℚ)
    (hx : l.head? = some x) (hy : l.getLast? = some y) :
    isAscending l = decide (x < y) := by
  unfold isAscending
  rw [hx, hy]

/-- A strictly sorted axis with at least two cells passes the source's
head-versus-last orientation check. -/
theorem isAscending_of_sorted (a b : ℚ) (l : List ℚ)
    (hs : (a :: b :: l).Sorted (· < ·)) :
    isAscending (a :: b :: l) = true := by
  have hne : (b :: l) ≠ [] := List.cons_ne_nil b l
  have hlast : (a :: b :: l).getLast? = some ((b :: l).getLast hne) := by
    rw [List.getLast?_eq_getLast (a :: b :: l) (List.cons_ne_nil a (b :: l))]
    rw [List.getLast_cons hne]
  have hmem : (b :: l).getLast hne ∈ b :: l := List.getLast_mem hne
  have hlt : a < (b :: l).getLast hne := List.rel_of_pairwise_cons hs hmem
  rw [isAscending_head_last (a :: b :: l) a ((b :: l).getLast hne) rfl hlast]
  exact decide_eq_true hlt

/-- The reverse of a strictly sorted axis with at least two cells fails
the source's head-versus-last orientation check. -/
theorem isAscending_reverse_of_sorted (a b : ℚ) (l : List ℚ)
    (hs : (a :: b :: l).Sorted (· < ·)) :
    isAscending (a :: b :: l).reverse = false := by
  have hne : (b :: l) ≠ [] := List.cons_ne_nil b l
  have hlast : (a :: b :: l).getLast? = some ((b :: l).getLast hne) := by
    rw [List.getLast?_eq_getLast (a :: b :: l) (List.cons_ne_nil a (b :: l))]
    rw [List.getLast_cons hne]
  have hmem : (b :: l).getLast hne ∈ b :: l := List.getLast_mem hne
  have hlt : a < (b :: l).getLast hne := List.rel_of_pairwise_cons hs hmem
  rw [isAscending_head_last ((a :: b :: l).reverse) ((b :: l).getLast hne) a
    (by rw [List.head?_reverse, hlast])
    (by rw [List.getLast?_reverse]; rfl)]
  exact decide_eq_false (not_lt.mpr (le_of_lt hlt))

/-- C5 (amended): the latitude axis is the one whose orientation the code
detects before slicing; for it the same logical window (centre plus
half-width, i.e. the two bounds `latMin` and `latMax`) selects exactly the
same cells whether the axis is stored ascending or descending - the
selection on the reversed axis is the reversal of the selection on the
original axis, so membership is unchanged cell for cell. -/
theorem C5_lat_orientation_invariant (lats : List ℚ)
    (hs : lats.Sorted (· < ·)) (latMin latMax : ℚ) :
    selLats lats.reverse latMin latMax = (selLats lats latMin latMax).reverse ∧
      ∀ c : ℚ, c ∈ selLats lats.reverse latMin latMax ↔
        c ∈ selLats lats latMin latMax := by
  have hmain : selLats lats.reverse latMin latMax =
      (selLats lats latMin latMax).reverse := by
    match lats, hs with
    | [], _ => rfl
    | [a], _ =>
        have hA : isAscending [a] = false := by
          rw [isAscending_head_last [a] a a rfl rfl]
          exact decide_eq_false (lt_irrefl a)
        rw [List.reverse_singleton, selLats, hA]
        simp only [Bool.false_eq_true, if_false]
        rw [sliceSel]
        rw [show monoInc [a] = true from rfl]
        simp only [if_true]
        rw [List.filter_singleton]
        cases hc : decide (max latMin latMax ≤ a) &&
            decide (a ≤ min latMin latMax) <;> rfl
    | a :: b :: l, hs =>
        rw [selLats, selLats, isAscending_of_sorted a b l hs,
          isAscending_reverse_of_sorted a b l hs]
        simp only [Bool.false_eq_true, if_false, if_true]
        rw [sliceSel, sliceSel, monoInc_of_sorted _ hs,
          monoInc_reverse_of_sorted a b l hs]
        simp only [Bool.false_eq_true, if_false, if_true]
        exact List.filter_reverse _ _
  exact ⟨hmain, fun c => by rw [hmain, List.mem_reverse]⟩

/-- C5 witness: a two-cell latitude axis selected through the orientation
branch gives the same cells ascending (`[0, 1]`) and descending
(`[1, 0]`). -/
theorem C5_witness :
    ([0, 1] : List ℚ).Sorted (· < ·) ∧
      (selLats ([0, 1] : List ℚ).reverse 0 1 = (selLats [0, 1] 0 1).reverse ∧
        ∀ c : ℚ, c ∈ selLats ([0, 1] : List ℚ).reverse 0 1 ↔
          c ∈ selLats [0, 1] 0 1) := by
  have hs : ([0, 1] : List ℚ).Sorted (· < ·) := by
    norm_num [List.sorted_cons]
  exact ⟨hs, C5_lat_orientation_invariant [0, 1] hs 0 1⟩

/-- On a window with a unique strict minimum at `q`, the centre-location
step records `q`'s coordinates and the pressure value at `q`. -/
theorem stepPoint_of_strictMin (g : Grid) (t : ℕ) (clat clon r : ℚ)
    (q : ℚ × ℚ) (h : strictMinCell g t clat clon r q) :
    stepPoint g t clat clon r = some ⟨t, q.1, q.2, g.mslp t q.1 q.2⟩ := by
  obtain ⟨hqmem, hmin⟩ := h
  have harg : argminCell (fun c => g.mslp t c.1 c.2)
      (windowCells g clat clon r) = some q :=
    argminCell_of_strictMin _ _ q hqmem hmin
  cases hw : windowCells g clat clon r with
  | nil => rw [hw] at hqmem; exact absurd hqmem (List.not_mem_nil q)
  | cons c cs =>
      rw [hw] at harg
      simp only [argminCell, Option.some.injEq] at harg
      have hm : minVal (fun c => g.mslp t c.1 c.2) (c :: cs) =
          some (cs.foldl (fun m d => min m ((fun c => g.mslp t c.1 c.2) d))
            ((fun c => g.mslp t c.1 c.2) c)) := rfl
      have hval : g.mslp t q.1 q.2 =
          cs.foldl (fun m d => min m ((fun c => g.mslp t c.1 c.2) d))
            ((fun c => g.mslp t c.1 c.2) c) := by
        rw [← harg]
        exact foldl_pickMin_val (fun c => g.mslp t c.1 c.2) cs c
      simp only [stepPoint, hw, argminCell, minVal, Option.some.injEq]
      rw [harg, ← hval]

/-- C6: on a grid with a single, unambiguous (strict) pressure minimum
inside the search window at every time step - where each step's window is
centred on the previous step's minimum, seeded at `p` - the tracking loop
records exactly that minimum's latitude and longitude at every step. -/
theorem C6_unique_min_recovered (g : Grid) (r : ℚ) (ts : List ℕ)
    (p : ℚ × ℚ) (ms : List (ℚ × ℚ)) (h : UniqueMinTrack g r ts p ms) :
    (trackLoop g r ts p.1 p.2).map (fun tp => (tp.latitude, tp.longitude)) =
      ms := by
  induction h with
  | nil p => rfl
  | cons t ts p q ms hq hrest ih =>
      have hstep := stepPoint_of_strictMin g t p.1 p.2 r q hq
      simp only [trackLoop, hstep, List.map_cons, List.cons.injEq, true_and]
      exact ih

/-- C6 witness: on the concrete grid `gW` the pressure minimum moves from
`(0, 0)` at the first time stamp to `(1, 1)` at the second, each a strict
minimum of its window, and the loop records exactly those positions. -/
theorem C6_witness :
    UniqueMinTrack gW 5 [0, 1] (0, 0) [(0, 0), (1, 1)] ∧
      (trackLoop gW 5 [0, 1] 0 0).map (fun tp => (tp.latitude, tp.longitude)) =
        [((0 : ℚ), (0 : ℚ)), (1, 1)] := by
  have h1 : strictMinCell gW 0 0 0 5 (0, 0) := by
    norm_num [strictMinCell, windowCells, selLats, selLons, sliceSel, monoInc,
      monoDec, isAscending, gW, List.filter_cons]
  have h2 : strictMinCell gW 1 0 0 5 (1, 1) := by
    norm_num [strictMinCell, windowCells, selLats, selLons, sliceSel, monoInc,
      monoDec, isAscending, gW, List.filter_cons]
  have h : UniqueMinTrack gW 5 [0, 1] (0, 0) [(0, 0), (1, 1)] :=
    UniqueMinTrack.cons 0 [1] (0, 0) (0, 0) [(1, 1)] h1
      (UniqueMinTrack.cons 1 [] (0, 0) (1, 1) [] h2 (UniqueMinTrack.nil (1, 1)))
  exact ⟨h, C6_unique_min_recovered gW 5 [0, 1] (0, 0) [(0, 0), (1, 1)] h⟩

/-- Each row of the intensity loop output relates its wind fields to the
wind-speed maximum over the secondary window centred on its own recorded
centre at its own time stamp. -/
theorem mem_intensityLoop_wind (g : Grid) (sr cf : ℚ) :
    ∀ (ts : List ℕ) (clat clon : ℚ) (row : IntensityRow),
      row ∈ intensityLoop g sr cf ts clat clon →
      ∀ m, maxVal (fun c => g.wspd row.time c.1 c.2)
          (windowCells g row.latitude row.longitude sr) = some m →
        row.max_wind_speed_ms = m * cf ∧
          (row.intensity_category, row.intensity_color) =
            get_intensity_category (m * cf) := by
  intro ts
  induction ts with
  | nil => intro clat clon row h; simp [intensityLoop] at h
  | cons t ts ih =>
      intro clat clon row h
      cases hstep : stepPoint g t clat clon 5 with
      | none => simp [intensityLoop, intensityStep, hstep] at h
      | some p =>
          simp only [intensityLoop, intensityStep, hstep] at h
          rcases List.mem_cons.mp h with h1 | h1
          · subst h1
            intro m hm
            have hm2 : maxVal (fun c => g.wspd t c.1 c.2)
                (windowCells g p.latitude p.longitude sr) = some m := hm
            cases hmv : maxVal (fun c => g.wspd t c.1 c.2)
                (windowCells g p.latitude p.longitude sr) with
            | none => rw [hmv] at hm2; exact absurd hm2 (by simp)
            | some raw =>
                rw [hmv] at hm2
                rw [Option.some.injEq] at hm2
                subst hm2
                simp [hmv]
          · exact ih p.latitude p.longitude row h1

/-- C7: for every produced intensity row (a time step at which a centre
was found), whenever the secondary window - the square of half-width `sr`
centred on that row's tracked centre - is nonempty with wind-speed
maximum `m`, the reported maximum sustained wind is exactly `m * cf` (the
window maximum times the correction factor) and the reported category and
colour are the classification of that corrected value by the fixed
thresholds; the hypothesis `hnorm` records that the wind-speed grid is
the Euclidean norm `sqrt(u^2 + v^2)` of the two 10 m wind components. -/
theorem C7_intensity_from_window_max (g : Grid) (u v : ℕ → ℚ → ℚ → ℚ)
    (start_lat start_lon sr cf : ℚ)
    (hnorm : ∀ (t : ℕ) (la lo : ℚ), 0 ≤ g.wspd t la lo ∧
        g.wspd t la lo ^ 2 = u t la lo ^ 2 + v t la lo ^ 2)
    (row : IntensityRow)
    (hrow : row ∈ calculate_intensity g start_lat start_lon sr cf) (m : ℚ)
    (hm : maxVal (fun c => g.wspd row.time c.1 c.2)
        (windowCells g row.latitude row.longitude sr) = some m) :
    row.max_wind_speed_ms = m * cf ∧
      (row.intensity_category, row.intensity_color) =
        get_intensity_category (m * cf) :=
  mem_intensityLoop_wind g sr cf g.times start_lat start_lon row hrow m hm

/-- C7 witness: on `gW` (wind magnitude 5 everywhere, the norm of
components 3 and 4), the first intensity row reports wind `5 * 1.4 = 7`
and the corresponding sub-threshold classification. -/
theorem C7_witness :
    ((⟨0, 0, 0, 99, 7, IntensityCat.LowPressure, "gray"⟩ : IntensityRow) ∈
        calculate_intensity gW 0 0 3 1.4) ∧
      maxVal (fun c => gW.wspd 0 c.1 c.2) (windowCells gW 0 0 3) = some 5 ∧
      ((7 : ℚ) = 5 * 1.4 ∧
        (IntensityCat.LowPressure, "gray") =
          get_intensity_category ((5 : ℚ) * 1.4)) := by
  have hrow : (⟨0, 0, 0, 99, 7, IntensityCat.LowPressure, "gray"⟩ :
      IntensityRow) ∈ calculate_intensity gW 0 0 3 1.4 := by
    norm_num [calculate_intensity, intensityLoop, intensityStep, stepPoint,
      windowCells, selLats, selLons, sliceSel, monoInc, monoDec, isAscending,
      argminCell, minVal, maxVal, pickMin, get_intensity_category, gW,
      List.filter_cons]
  have hmax : maxVal (fun c => gW.wspd 0 c.1 c.2) (windowCells gW 0 0 3) =
      some 5 := by
    norm_num [maxVal, windowCells, selLats, selLons, sliceSel, monoInc,
      monoDec, isAscending, gW, List.filter_cons]
  exact ⟨hrow, hmax,
    C7_intensity_from_window_max gW (fun _ _ _ => 3) (fun _ _ _ => 4) 0 0 3 1.4
      (fun t la lo => ⟨by norm_num [gW], by norm_num [gW]⟩)
      ⟨0, 0, 0, 99, 7, IntensityCat.LowPressure, "gray"⟩ hrow 5 hmax⟩

end Typhoon
